import Mathlib

/-!
Shallow embedding of `contextful`, file `src/contextful/context_logger.py`:
a contextual-logging layer over Python `logging`, whose ambient context is a
`contextvars.ContextVar` holding a flattened dict, pushed/popped by the
`ContextLogger.context` scope handles.

Python dicts with string keys are modelled as association lists with unique
keys maintained by construction (`dictSet` updates in place or appends, which
is exactly CPython insertion-order update semantics, so `{**c, **d}` is a left
fold of `dictSet` over `d` starting from `c`).
-/

/-- Values stored in context dicts: the scenarios in the spec use strings and
integers. -/
inductive Value where
  | str (s : String)
  | int (n : Int)
deriving DecidableEq, Repr

/-- A Python dict with string keys, as an insertion-ordered association list. -/
abbrev Ctx := List (String × Value)

/-- Membership test for a key, `k in d`. -/
def listContains {α : Type} (d : List (String × α)) (k : String) : Bool :=
  match d with
  | [] => false
  | p :: rest => p.1 = k || listContains rest k

/-- Lookup, `d[k]` (first binding; dicts built by `listSet` have unique keys). -/
def listLookup {α : Type} (d : List (String × α)) (k : String) : Option α :=
  match d with
  | [] => none
  | p :: rest => if p.1 = k then some p.2 else listLookup rest k

/-- Python dict assignment `d[k] = v`: updates the existing binding in place
(keeping its position) or appends a new one. -/
def listSet {α : Type} (d : List (String × α)) (k : String) (v : α) : List (String × α) :=
  if listContains d k then d.map (fun p => if p.1 = k then (k, v) else p)
  else d ++ [(k, v)]

/-- Python `d.pop(k)` restricted to its removal effect: drops every binding of
`k` (a unique-key dict has at most one). -/
def listPopKey {α : Type} (d : List (String × α)) (k : String) : List (String × α) :=
  d.filter (fun p => p.1 ≠ k)

/-- The dict-unpacking merge `\x7b**c, **d\x7d`: start from `c` and apply each
binding of `d` with Python update semantics. -/
def dictMerge (c d : Ctx) : Ctx :=
  d.foldl (fun acc p => listSet acc p.1 p.2) c

/-!
The ambient propagation substrate: `_global_context = ContextVar('context_logger_store', default={})`.
A `ContextVar` value plus its outstanding restore tokens is modelled as a state
record; `tokens` is indexed by token id, `none` marking a token already used.
`CtxVarState.set` mirrors `ContextVar.set` (returns a token capturing the
previous value); `CtxVarState.reset` mirrors `ContextVar.reset` (restores the
captured value by direct replacement, and raises `RuntimeError` when the token
was already used once, as CPython does).
-/

/-- State of `_global_context` in one strand: the current dict and the restore
tokens handed out in this strand. -/
structure CtxVarState where
  current : Ctx
  tokens : List (Option Ctx)
deriving DecidableEq, Repr

/-- Python `ContextVar.set(v)`: swaps in `v`, returns the id of a fresh token
capturing the previous value. -/
def CtxVarState.set (s : CtxVarState) (v : Ctx) : CtxVarState × Nat :=
  (⟨v, s.tokens ++ [some s.current]⟩, s.tokens.length)

/-- Python `ContextVar.reset(token)`: restores the value captured in the token
by direct replacement and marks the token used; raises `RuntimeError` if the
token has already been used once. -/
def CtxVarState.reset (s : CtxVarState) (t : Nat) : Except String CtxVarState :=
  match s.tokens[t]? with
  | none => .error "ValueError: invalid token"
  | some none => .error "RuntimeError: Token has already been used once"
  | some (some old) => .ok ⟨old, s.tokens.set t none⟩

/-- Scope handle: `LogContext` (`id` is an opaque uuid, irrelevant to the
propagation semantics; `_cleanup_hook` is always `ContextLogger._remove_context`
of the creating logger, applied explicitly below). -/
structure LogContext where
  data : Ctx
  context_token : Nat
deriving DecidableEq, Repr

/-- Attribute values on an emitted record: top-level fields carry scalar
context values, and the reserved key carries a whole context dict. -/
inductive Attr where
  | val (v : Value)
  | ctx (c : Ctx)
deriving DecidableEq, Repr

/-- The `extra` dict handed to `logging.Logger._log`. -/
abbrev Extra := List (String × Attr)

/-- Configuration of a `ContextLogger` (name and level are backend concerns and
do not enter the context pipeline). -/
structure ContextLogger where
  base_context : Ctx
  top_level_fields : List String
  always_set_context : Bool
deriving DecidableEq, Repr

/-- Lines 59–62 of `_log`: the finalized (merged) context before top-level
extraction. `exclude_context` keeps a copy of the base context alone; otherwise
`\x7b**self._base_context, **_global_context.get(), **(context or \x7b\x7d)\x7d`. -/
def ContextLogger.finalizedContext (L : ContextLogger) (global : Ctx)
    (context : Option Ctx) (exclude_context : Bool) : Ctx :=
  if exclude_context then L.base_context
  else dictMerge (dictMerge L.base_context global) (context.getD [])

/-- Lines 70–72 of `_log`: pop each declared top-level field found in the
finalized context onto `extra`. The pair carried is `(extra, finalized_context)`. -/
def ContextLogger.extractFields (fields : List String) (p : Extra × Ctx) : Extra × Ctx :=
  fields.foldl
    (fun p field =>
      if listContains p.2 field then
        match listLookup p.2 field with
        | some v => (listSet p.1 field (Attr.val v), listPopKey p.2 field)
        | none => p
      else p) p

/-- `ContextLogger._log`, context pipeline (once `isEnabledFor` admitted the
call): raises `ValueError` when the caller-supplied `extra` dict contains the
reserved key, extracts top-level fields, attaches the remaining context under
the reserved key when non-empty or `always_set_context`, and returns the
`extra` dict passed on to `logging.Logger._log`. -/
def ContextLogger.logExtra (L : ContextLogger) (global : Ctx) (context : Option Ctx)
    (exclude_context : Bool) (extra : Extra) : Except String Extra :=
  let finalized := L.finalizedContext global context exclude_context
  if listContains extra "context" then
    .error "ValueError: Logging extra dict must not contain a key named context as it is reserved for ContexLogger use"
  else
    let p := ContextLogger.extractFields L.top_level_fields (extra, finalized)
    let extra := if p.2 ≠ [] || L.always_set_context then listSet p.1 "context" (Attr.ctx p.2) else p.1
    .ok extra

/-- `ContextLogger.context(context)`: reads the current ambient value, merges
the new layer over it, swaps the merge in, and returns the scope handle
carrying the restore token. -/
def ContextLogger.context (s : CtxVarState) (context : Ctx) : CtxVarState × LogContext :=
  let current_context := s.current
  let new_context := dictMerge current_context context
  let (s', context_token) := s.set new_context
  (s', ⟨context, context_token⟩)

/-- `ContextLogger._remove_context`: `_global_context.reset(log_context.context_token)`. -/
def ContextLogger.remove_context (s : CtxVarState) (lc : LogContext) : Except String CtxVarState :=
  s.reset lc.context_token

/-- `LogContext.__exit__`: invokes the cleanup hook, which is
`ContextLogger._remove_context`. -/
def LogContext.exit (s : CtxVarState) (lc : LogContext) : Except String CtxVarState :=
  ContextLogger.remove_context s lc

/-- `ContextLogger.warn(*args, **kwargs)`: unconditionally raises
`NotImplementedError` before any record is emitted. -/
def ContextLogger.warn (_L : ContextLogger) (_args : List Attr) (_kwargs : Extra) :
    Except String Extra :=
  .error "NotImplementedError: Warn is unsupported. Use logger.warning instead."
/-!
Nested scope chains, the copy-on-spawn strand model, and a heap view of the
dict operations of `__init__` and `_log`.
-/

/-- Opens a list of scopes in order via `ContextLogger.context`, returning the
final ambient state and the scope handles in opening order. -/
def openAll (s : CtxVarState) : List Ctx → CtxVarState × List LogContext
  | [] => (s, [])
  | d :: rest =>
    let (s', lc) := ContextLogger.context s d
    let (s'', lcs) := openAll s' rest
    (s'', lc :: lcs)

/-- Closes scope handles in LIFO order (the most recently opened first),
invoking `LogContext.__exit__` on each. -/
def closeAll (s : CtxVarState) : List LogContext → Except String CtxVarState
  | [] => .ok s
  | lc :: rest => (closeAll s rest).bind (fun s' => LogContext.exit s' lc)

/-- Spawning a concurrent strand (an `asyncio` task): the child runs in a copy
of the parent Context, so it sees the parent's current value of
`_global_context` at spawn time, while the parent's restore tokens stay with
the parent and later mutations on either side are local to their own copy.
This is the documented `contextvars` copy-on-spawn contract the code builds on. -/
def spawnStrand (parent : CtxVarState) : CtxVarState :=
  ⟨parent.current, []⟩

/-- A world of two sibling strands, each owning its own isolated copy of the
ambient `_global_context` state. -/
structure TwoStrands where
  strandA : CtxVarState
  strandB : CtxVarState
deriving DecidableEq, Repr

/-- One scheduling event: strand A or strand B opens a scope with some data. -/
inductive StrandOp where
  | pushA (d : Ctx)
  | pushB (d : Ctx)
deriving DecidableEq, Repr

/-- Executes one event: each strand mutates only its own copy of the ambient
state, which is what per-task `contextvars` isolation provides. -/
def stepStrands (w : TwoStrands) (op : StrandOp) : TwoStrands :=
  match op with
  | .pushA d => ⟨(ContextLogger.context w.strandA d).1, w.strandB⟩
  | .pushB d => ⟨w.strandA, (ContextLogger.context w.strandB d).1⟩

/-- Runs an interleaving of events from the two strands. -/
def runStrands (w : TwoStrands) (ops : List StrandOp) : TwoStrands :=
  ops.foldl stepStrands w

/-- A heap of Python dict objects: cell index is object identity. This view
makes aliasing and in-place mutation observable, so that the defensive
`.copy()` in `__init__` and the freshness of the finalized dict in `_log` can
be stated. -/
structure Heap where
  cells : List Ctx
deriving DecidableEq, Repr

/-- Dereference a dict object. -/
def Heap.get (h : Heap) (r : Nat) : Ctx :=
  (h.cells[r]?).getD []

/-- Allocate a fresh dict object. -/
def Heap.alloc (h : Heap) (v : Ctx) : Heap × Nat :=
  (⟨h.cells ++ [v]⟩, h.cells.length)

/-- Mutate a dict object in place. -/
def Heap.write (h : Heap) (r : Nat) (v : Ctx) : Heap :=
  ⟨h.cells.set r v⟩

/-- A `ContextLogger` whose base context is a reference to a heap cell. -/
structure HeapLogger where
  base_ref : Nat
  top_level_fields : List String
  always_set_context : Bool
deriving DecidableEq, Repr

/-- `ContextLogger.__init__`, heap view:
`self._base_context = (base_context or \x7b\x7d).copy()` reads the caller's
dict (or the empty default) and stores a freshly allocated copy. -/
def ContextLogger.initHeap (h : Heap) (base_context : Option Nat)
    (fields : List String) (alw : Bool) : Heap × HeapLogger :=
  let v := match base_context with
    | some r => h.get r
    | none => []
  let (h', r) := h.alloc v
  (h', ⟨r, fields, alw⟩)

/-- `ContextLogger._log`, heap view: the finalized context is a freshly
allocated dict (a `.copy()` of the base under `exclude_context`, else the new
dict built by unpacking); the top-level-field pops mutate only that fresh
cell. Returns the heap after the call and the `extra` payload. -/
def ContextLogger.logExtraHeap (h : Heap) (L : HeapLogger) (global : Ctx)
    (context : Option Ctx) (exclude_context : Bool) (extra : Extra) :
    Heap × Except String Extra :=
  let fin0 := if exclude_context then h.get L.base_ref
    else dictMerge (dictMerge (h.get L.base_ref) global) (context.getD [])
  let (h1, fcRef) := h.alloc fin0
  if listContains extra "context" then
    (h1, .error "ValueError: Logging extra dict must not contain a key named context as it is reserved for ContexLogger use")
  else
    let p := ContextLogger.extractFields L.top_level_fields (extra, h1.get fcRef)
    let h2 := h1.write fcRef p.2
    let e := if p.2 ≠ [] || L.always_set_context then listSet p.1 "context" (Attr.ctx p.2) else p.1
    (h2, .ok e)

/-!
Concrete states for the scenario claims.
-/

/-- A strand with empty ambient context and no scopes yet. -/
def emptyStrand : CtxVarState := ⟨[], []⟩

/-- A plain logger: no base context, no top-level fields. -/
def plainLogger : ContextLogger := ⟨[], [], false⟩

/-- Scenario: open layer `\x7ba:1\x7d`. -/
def c4open1 : CtxVarState × LogContext :=
  ContextLogger.context emptyStrand [("a", Value.int 1)]

/-- Scenario: then open layer `\x7ba:2,b:1\x7d`. -/
def c4open2 : CtxVarState × LogContext :=
  ContextLogger.context c4open1.1 [("a", Value.int 2), ("b", Value.int 1)]

/-- Scenario: then open layer `\x7bc:1\x7d`. -/
def c4open3 : CtxVarState × LogContext :=
  ContextLogger.context c4open2.1 [("c", Value.int 1)]

/-- Scenario: open scope `\x7buser:a\x7d`. -/
def c4user1 : CtxVarState × LogContext :=
  ContextLogger.context emptyStrand [("user", Value.str "a")]

/-- Scenario: nested scope `\x7buser:b,req:1\x7d`. -/
def c4user2 : CtxVarState × LogContext :=
  ContextLogger.context c4user1.1 [("user", Value.str "b"), ("req", Value.int 1)]

/-!
Lookup lemmas for the dict model. These establish that `listSet`, `listPopKey`
and `dictMerge` have the pointwise semantics of Python dict update, `pop`, and
`\x7b**c, **d\x7d` merge.
-/

theorem listContains_eq_isSome {α : Type} (d : List (String × α)) (k : String) :
    listContains d k = (listLookup d k).isSome := by
  induction d with
  | nil => rfl
  | cons p d ih =>
    by_cases h : p.1 = k
    · simp [listContains, listLookup, h]
    · simp [listContains, listLookup, h, ih]

theorem listLookup_eq_none_of_not_contains {α : Type} {d : List (String × α)} {k : String}
    (h : listContains d k = false) : listLookup d k = none := by
  have := listContains_eq_isSome d k
  rw [h] at this
  cases hl : listLookup d k with
  | none => rfl
  | some v => rw [hl] at this; simp at this

theorem listLookup_eq_none_of_not_mem {α : Type} {d : List (String × α)} {k : String}
    (h : k ∉ d.map Prod.fst) : listLookup d k = none := by
  induction d with
  | nil => rfl
  | cons p d ih =>
    simp only [List.map_cons, List.mem_cons] at h
    push_neg at h
    have hp : ¬ p.1 = k := fun he => h.1 he.symm
    simp only [listLookup, hp, if_false]
    exact ih h.2

theorem lookup_map_update_self {α : Type} (d : List (String × α)) (k : String) (v : α)
    (h : listContains d k = true) :
    listLookup (d.map (fun p => if p.1 = k then (k, v) else p)) k = some v := by
  induction d with
  | nil => simp [listContains] at h
  | cons p d ih =>
    by_cases hp : p.1 = k
    · simp [listLookup, hp]
    · have h' : listContains d k = true := by simpa [listContains, hp] using h
      simpa [listLookup, hp] using ih h'

theorem lookup_map_update_ne {α : Type} (d : List (String × α)) (k k' : String) (v : α)
    (hne : k' ≠ k) :
    listLookup (d.map (fun p => if p.1 = k then (k, v) else p)) k' = listLookup d k' := by
  induction d with
  | nil => rfl
  | cons p d ih =>
    by_cases hp : p.1 = k
    · have hk : ¬ k = k' := fun h => hne h.symm
      have hp' : ¬ p.1 = k' := by rw [hp]; exact hk
      simp only [List.map_cons, listLookup, hp, if_true, hk, if_false, hp']
      exact ih
    · simp only [List.map_cons, listLookup, hp, if_false]
      by_cases hp' : p.1 = k'
      · simp [hp']
      · simp only [hp', if_false]
        exact ih

theorem listLookup_listSet_self {α : Type} (d : List (String × α)) (k : String) (v : α) :
    listLookup (listSet d k v) k = some v := by
  unfold listSet
  by_cases h : listContains d k
  · simp only [h, if_true]
    exact lookup_map_update_self d k v h
  · simp only [Bool.not_eq_true] at h
    simp only [h, Bool.false_eq_true, if_false]
    have hd : listLookup d k = none := listLookup_eq_none_of_not_contains h
    induction d with
    | nil => simp [listLookup]
    | cons p d ih =>
      have hp : ¬ p.1 = k := by
        intro he
        simp [listContains, he] at h
      simp only [List.cons_append, listLookup, hp, if_false]
      exact ih (by simpa [listContains, hp] using h) (by simpa [listLookup, hp] using hd)

theorem listLookup_listSet_ne {α : Type} (d : List (String × α)) (k k' : String) (v : α)
    (hne : k' ≠ k) :
    listLookup (listSet d k v) k' = listLookup d k' := by
  unfold listSet
  by_cases h : listContains d k
  · simp only [h, if_true]
    exact lookup_map_update_ne d k k' v hne
  · simp only [Bool.not_eq_true] at h
    simp only [h, Bool.false_eq_true, if_false]
    have hk : ¬ k = k' := fun h => hne h.symm
    induction d with
    | nil => simp [listLookup, hk]
    | cons p d ih =>
      by_cases hp : p.1 = k'
      · simp [listLookup, hp]
      · simp only [List.cons_append, listLookup, hp, if_false]
        exact ih (by
          cases hc : listContains d k
          · rfl
          · simp [listContains, hc] at h)

theorem listLookup_listPopKey_self {α : Type} (d : List (String × α)) (k : String) :
    listLookup (listPopKey d k) k = none := by
  induction d with
  | nil => rfl
  | cons p d ih =>
    by_cases hp : p.1 = k
    · simpa [listPopKey, List.filter_cons, hp] using ih
    · simpa [listPopKey, List.filter_cons, hp, listLookup] using ih

theorem listLookup_listPopKey_ne {α : Type} (d : List (String × α)) (k k' : String)
    (hne : k' ≠ k) :
    listLookup (listPopKey d k) k' = listLookup d k' := by
  have hk : ¬ k = k' := fun h => hne h.symm
  induction d with
  | nil => rfl
  | cons p d ih =>
    by_cases hp : p.1 = k
    · have hp' : ¬ p.1 = k' := by rw [hp]; exact hk
      simpa [listPopKey, List.filter_cons, hp, listLookup, hp', hk] using ih
    · by_cases hp' : p.1 = k'
      · simp [listPopKey, List.filter_cons, hp, listLookup, hp', hne]
      · simpa [listPopKey, List.filter_cons, hp, listLookup, hp', hne] using ih

theorem listLookup_dictMerge (c d : Ctx) (k : String) (hd : (d.map Prod.fst).Nodup) :
    listLookup (dictMerge c d) k = (listLookup d k).or (listLookup c k) := by
  induction d generalizing c with
  | nil => simp [dictMerge, listLookup]
  | cons p d ih =>
    rw [List.map_cons, List.nodup_cons] at hd
    have step : dictMerge c (p :: d) = dictMerge (listSet c p.1 p.2) d := rfl
    rw [step, ih _ hd.2]
    by_cases hk : k = p.1
    · rw [hk]
      have hnone : listLookup d p.1 = none := listLookup_eq_none_of_not_mem hd.1
      rw [listLookup_listSet_self]
      simp [hnone, listLookup]
    · rw [listLookup_listSet_ne _ _ _ _ hk]
      have hp : ¬ p.1 = k := fun h => hk h.symm
      simp [listLookup, hp]

/-- Master lemma for the top-level extraction loop of `_log`: pointwise effect
of `extractFields` on the `extra` dict and the finalized context, for a
duplicate-free field list (`_top_level_fields` is a frozenset). A field present
in the context moves to `extra` with its value; a field is gone from the
remaining context whether or not it was present; other keys are untouched. -/
theorem extractFields_lookup (fields : List String) (e : Extra) (c : Ctx) (k : String)
    (hnd : fields.Nodup) :
    listLookup (ContextLogger.extractFields fields (e, c)).1 k
      = (if k ∈ fields then ((listLookup c k).map Attr.val).or (listLookup e k)
         else listLookup e k)
    ∧ listLookup (ContextLogger.extractFields fields (e, c)).2 k
      = (if k ∈ fields then none else listLookup c k) := by
  induction fields generalizing e c with
  | nil => simp [ContextLogger.extractFields]
  | cons g fields ih =>
    rw [List.nodup_cons] at hnd
    have step : ContextLogger.extractFields (g :: fields) (e, c)
        = ContextLogger.extractFields fields
            (if listContains c g then
              match listLookup c g with
              | some v => (listSet e g (Attr.val v), listPopKey c g)
              | none => (e, c)
             else (e, c)) := rfl
    by_cases hcg : listContains c g
    · have hsome : (listLookup c g).isSome := by
        rw [← listContains_eq_isSome]; exact hcg
      obtain ⟨v, hv⟩ := Option.isSome_iff_exists.mp hsome
      rw [step]
      simp only [hcg, if_true, hv]
      by_cases hk : k = g
      · rw [hk]
        have hg : g ∉ fields := hnd.1
        have := ih (listSet e g (Attr.val v)) (listPopKey c g) hnd.2
        rw [hk] at this
        constructor
        · rw [this.1]
          simp [hg, listLookup_listSet_self, hv]
        · rw [this.2]
          simp [hg, listLookup_listPopKey_self]
      · have := ih (listSet e g (Attr.val v)) (listPopKey c g) hnd.2
        constructor
        · rw [this.1, listLookup_listSet_ne _ _ _ _ hk]
          simp [List.mem_cons, hk, listLookup_listPopKey_ne _ _ _ hk]
        · rw [this.2]
          simp [List.mem_cons, hk, listLookup_listPopKey_ne _ _ _ hk]
    · have hnone : listLookup c g = none := by
        cases hb : listContains c g
        · exact listLookup_eq_none_of_not_contains hb
        · exact absurd hb hcg
      rw [step]
      simp only [hcg, Bool.false_eq_true, if_false]
      have := ih e c hnd.2
      by_cases hk : k = g
      · constructor
        · rw [this.1]
          by_cases hgf : g ∈ fields
          · simp [hk, hgf]
          · simp [hk, hgf, hnone]
        · rw [this.2]
          by_cases hgf : g ∈ fields
          · simp [hk, hgf]
          · simp [hk, hgf, hnone]
      · constructor
        · rw [this.1]; simp [List.mem_cons, hk]
        · rw [this.2]; simp [List.mem_cons, hk]

/-!
Claim theorems.
-/

/-- Unfolded form of one scope push: the merged value is swapped in and the
handle's token is the index of the freshly appended restore token. -/
theorem context_push_spec (s : CtxVarState) (d : Ctx) :
    (ContextLogger.context s d).1 = ⟨dictMerge s.current d, s.tokens ++ [some s.current]⟩
    ∧ (ContextLogger.context s d).2 = ⟨d, s.tokens.length⟩ :=
  ⟨rfl, rfl⟩

/-- C1 as stated is false: closing the same scope handle twice is not a no-op
— the second `__exit__` calls `ContextVar.reset` with an already-used token,
which raises `RuntimeError`. Concretely, open one scope on an empty strand,
close it, close it again: the second close fails. -/
theorem C1_counterexample :
    (LogContext.exit (ContextLogger.context ⟨[], []⟩ [("a", Value.int 1)]).1
        (ContextLogger.context ⟨[], []⟩ [("a", Value.int 1)]).2).bind
      (fun s => LogContext.exit s (ContextLogger.context ⟨[], []⟩ [("a", Value.int 1)]).2)
      = Except.error "RuntimeError: Token has already been used once" := by
  rfl

/-- C1 (amended): only the first close pops the layer — it restores the
previous merged context exactly; a second close of the same handle raises a
`RuntimeError` (used token) instead of being a no-op, leaving the current
context as it was after the first close. -/
theorem C1_second_close_raises (s : CtxVarState) (d : Ctx) :
    ∃ s'' : CtxVarState,
      LogContext.exit (ContextLogger.context s d).1 (ContextLogger.context s d).2 = .ok s''
      ∧ s''.current = s.current
      ∧ LogContext.exit s'' (ContextLogger.context s d).2
          = .error "RuntimeError: Token has already been used once" := by
  refine ⟨⟨s.current, (s.tokens ++ [some s.current]).set s.tokens.length none⟩, ?_, rfl, ?_⟩
  · show CtxVarState.reset ⟨dictMerge s.current d, s.tokens ++ [some s.current]⟩ s.tokens.length = _
    unfold CtxVarState.reset
    simp [List.getElem?_concat_length]
  · show CtxVarState.reset _ s.tokens.length = _
    unfold CtxVarState.reset
    have hlen : s.tokens.length < (s.tokens ++ [some s.current]).length := by
      simp
    simp [List.getElem?_set_self hlen]

/-- C2 as stated is false for top-level-field collisions: with
`top_level_fields = [user]`, a log call whose `extra` carries `user = 1` and
whose inline context carries `user = 2` does not fail — it succeeds and the
caller's `extra` value is silently overwritten with `2`. -/
theorem C2_counterexample :
    ContextLogger.logExtra ⟨[], ["user"], false⟩ [] (some [("user", Value.int 2)]) false
        [("user", Attr.val (Value.int 1))]
      = .ok [("user", Attr.val (Value.int 2))] := by
  rfl

/-- C2 (amended): only the reserved key is checked — whenever the
caller-supplied `extra` dict defines the key `context`, the log call fails
synchronously with a `ValueError`; a collision between `extra` and a declared
top-level field name is not detected, and the colliding `extra` value is
silently overwritten when that field occurs in the merged context. -/
theorem C2_reserved_key_raises (L : ContextLogger) (global : Ctx) (context : Option Ctx)
    (exclude_context : Bool) (extra : Extra)
    (h : listContains extra "context" = true) :
    L.logExtra global context exclude_context extra
      = .error "ValueError: Logging extra dict must not contain a key named context as it is reserved for ContexLogger use" := by
  unfold ContextLogger.logExtra
  simp [h]

/-- Witness for `C2_reserved_key_raises` at a concrete input. -/
theorem C2_reserved_key_raises_witness :
    listContains [(("context" : String), Attr.ctx [])] "context" = true
    ∧ ContextLogger.logExtra ⟨[], [], false⟩ [] none false [("context", Attr.ctx [])]
        = .error "ValueError: Logging extra dict must not contain a key named context as it is reserved for ContexLogger use" :=
  ⟨by decide, C2_reserved_key_raises ⟨[], [], false⟩ [] none false [("context", Attr.ctx [])]
    (by decide)⟩

/-- C3: merge precedence is base context < ambient context < inline call-site
context with last write winning pointwise; `exclude_context` yields exactly the
base context; and the base-context scenario emits
`context = (service, x)` as its sole attribute. -/
theorem C3_precedence_and_exclude :
    (∀ (L : ContextLogger) (global inline : Ctx) (k : String),
        (global.map Prod.fst).Nodup → (inline.map Prod.fst).Nodup →
        listLookup (L.finalizedContext global (some inline) false) k
          = ((listLookup inline k).or ((listLookup global k).or (listLookup L.base_context k))))
    ∧ (∀ (L : ContextLogger) (global : Ctx) (inline : Option Ctx),
        L.finalizedContext global inline true = L.base_context)
    ∧ ContextLogger.logExtra ⟨[("service", Value.str "x")], [], false⟩ [] none false []
        = .ok [("context", Attr.ctx [("service", Value.str "x")])] := by
  refine ⟨?_, fun L g i => rfl, by rfl⟩
  intro L global inline k hg hi
  unfold ContextLogger.finalizedContext
  simp only [Bool.false_eq_true, if_false, Option.getD_some]
  rw [listLookup_dictMerge _ _ _ hi, listLookup_dictMerge _ _ _ hg]

/-- Witness for `C3_precedence_and_exclude` at a concrete input: with the same
key at all three levels, the inline value wins. -/
theorem C3_precedence_witness :
    listLookup (ContextLogger.finalizedContext ⟨[("k", Value.int 0)], [], false⟩
        [("k", Value.int 1)] (some [("k", Value.int 2)]) false) "k"
      = some (Value.int 2) :=
  (C3_precedence_and_exclude.1 ⟨[("k", Value.int 0)], [], false⟩ [("k", Value.int 1)]
      [("k", Value.int 2)] "k" (by decide) (by decide)).trans (by decide)

/-- C4: LIFO shadowing. Opening layers `a = 1`, then `a = 2, b = 1`, then
`c = 1` on one strand yields merged context `a = 2, b = 1, c = 1`; closing the
most recent layer leaves `a = 2, b = 1`. Opening scope `user = a` then nested
`user = b, req = 1` yields `user = b, req = 1` (a log call emits exactly that
context), and after closing the inner scope a log call sees `user = a`. -/
theorem C4_lifo_shadowing :
    c4open3.1.current = [("a", Value.int 2), ("b", Value.int 1), ("c", Value.int 1)]
    ∧ (LogContext.exit c4open3.1 c4open3.2).map (fun s => s.current)
        = .ok [("a", Value.int 2), ("b", Value.int 1)]
    ∧ c4user2.1.current = [("user", Value.str "b"), ("req", Value.int 1)]
    ∧ ContextLogger.logExtra plainLogger c4user2.1.current none false []
        = .ok [("context", Attr.ctx [("user", Value.str "b"), ("req", Value.int 1)])]
    ∧ (LogContext.exit c4user2.1 c4user2.2).map (fun s => s.current)
        = .ok [("user", Value.str "a")]
    ∧ (LogContext.exit c4user2.1 c4user2.2).bind
        (fun s => ContextLogger.logExtra plainLogger s.current none false [])
        = .ok [("context", Attr.ctx [("user", Value.str "a")])] := by
  refine ⟨rfl, rfl, rfl, rfl, rfl, rfl⟩

/-- C5: push/pop round-trip on the ambient propagator. Opening a scope with
data `d` sets the current value to the merge of the previous value with `d`
and captures the previous value; closing it restores the current value to
exactly the previous value by direct replacement of the captured dict. -/
theorem C5_push_pop_roundtrip (s : CtxVarState) (d : Ctx) :
    (ContextLogger.context s d).1.current = dictMerge s.current d
    ∧ ∃ s'' : CtxVarState,
        ContextLogger.remove_context (ContextLogger.context s d).1
            (ContextLogger.context s d).2 = .ok s''
        ∧ s''.current = s.current := by
  refine ⟨rfl, ⟨s.current, (s.tokens ++ [some s.current]).set s.tokens.length none⟩, ?_, rfl⟩
  show CtxVarState.reset ⟨dictMerge s.current d, s.tokens ++ [some s.current]⟩ s.tokens.length = _
  unfold CtxVarState.reset
  simp [List.getElem?_concat_length]

/-- C8: the deprecated `warn` method raises `NotImplementedError` for every
argument combination, pointing at `warning`, and never emits a record. -/
theorem C8_warn_always_raises (L : ContextLogger) (args : List Attr) (kwargs : Extra) :
    L.warn args kwargs
      = .error "NotImplementedError: Warn is unsupported. Use logger.warning instead." :=
  rfl

/-- When the caller's `extra` lacks the reserved key, `_log` succeeds and the
resulting payload is the extraction result, with the remaining context
attached under `context` when non-empty or `always_set_context`. -/
theorem logExtra_ok (L : ContextLogger) (global : Ctx) (context : Option Ctx)
    (exclude_context : Bool) (extra : Extra)
    (hx : listContains extra "context" = false) :
    L.logExtra global context exclude_context extra
      = .ok (if (ContextLogger.extractFields L.top_level_fields
                  (extra, L.finalizedContext global context exclude_context)).2 ≠ []
                || L.always_set_context
             then listSet (ContextLogger.extractFields L.top_level_fields
                    (extra, L.finalizedContext global context exclude_context)).1 "context"
                  (Attr.ctx (ContextLogger.extractFields L.top_level_fields
                    (extra, L.finalizedContext global context exclude_context)).2)
             else (ContextLogger.extractFields L.top_level_fields
                    (extra, L.finalizedContext global context exclude_context)).1) := by
  unfold ContextLogger.logExtra
  simp [hx]

/-- C6 as stated is false when a top-level field is named `context` itself:
with `top_level_fields = [context]`, `always_set_context = true` and base
context `context = 5`, the field is popped out of the merged context, but the
attached attribute is then overwritten by the (now empty) context payload, so
the extracted value `5` is lost rather than attached. -/
theorem C6_counterexample :
    "context" ∈ (ContextLogger.mk [("context", Value.int 5)] ["context"] true).top_level_fields
    ∧ listLookup (ContextLogger.finalizedContext ⟨[("context", Value.int 5)], ["context"], true⟩
        [] none false) "context" = some (Value.int 5)
    ∧ ContextLogger.logExtra ⟨[("context", Value.int 5)], ["context"], true⟩ [] none false []
        = .ok [("context", Attr.ctx [])]
    ∧ listLookup [(("context" : String), Attr.ctx [])] "context"
        ≠ some (Attr.val (Value.int 5)) := by
  refine ⟨by decide, rfl, rfl, by decide⟩

/-- C6 (amended): every declared top-level field other than the reserved name
`context` that occurs in the merged context is removed from the nested context
mapping and attached to the emitted payload as a sibling attribute with the
same value; a field literally named `context` is also popped, but its attached
value can be overwritten by the context attribute itself. -/
theorem C6_top_level_extraction (L : ContextLogger) (global : Ctx) (context : Option Ctx)
    (exclude_context : Bool) (extra : Extra) (f : String)
    (hnd : L.top_level_fields.Nodup)
    (hf : f ∈ L.top_level_fields)
    (hfc : f ≠ "context")
    (hx : listContains extra "context" = false)
    (hpresent : listContains (L.finalizedContext global context exclude_context) f = true) :
    ∃ e : Extra,
      L.logExtra global context exclude_context extra = .ok e
      ∧ listLookup e f
          = (listLookup (L.finalizedContext global context exclude_context) f).map Attr.val
      ∧ ∀ c' : Ctx, listLookup e "context" = some (Attr.ctx c') → listLookup c' f = none := by
  have master := extractFields_lookup L.top_level_fields extra
      (L.finalizedContext global context exclude_context) f hnd
  have mctx := extractFields_lookup L.top_level_fields extra
      (L.finalizedContext global context exclude_context) "context" hnd
  have hxn : listLookup extra "context" = none := listLookup_eq_none_of_not_contains hx
  have hsome : (listLookup (L.finalizedContext global context exclude_context) f).isSome := by
    rw [← listContains_eq_isSome]; exact hpresent
  obtain ⟨v, hv⟩ := Option.isSome_iff_exists.mp hsome
  have h1 : listLookup (ContextLogger.extractFields L.top_level_fields
      (extra, L.finalizedContext global context exclude_context)).1 f
      = (listLookup (L.finalizedContext global context exclude_context) f).map Attr.val := by
    rw [master.1, if_pos hf, hv]
    rfl
  have h2 : listLookup (ContextLogger.extractFields L.top_level_fields
      (extra, L.finalizedContext global context exclude_context)).2 f = none := by
    rw [master.2, if_pos hf]
  refine ⟨_, logExtra_ok L global context exclude_context extra hx, ?_, ?_⟩
  · by_cases hcond : (ContextLogger.extractFields L.top_level_fields
        (extra, L.finalizedContext global context exclude_context)).2 ≠ []
        || L.always_set_context
    · rw [if_pos hcond, listLookup_listSet_ne _ _ _ _ hfc]
      exact h1
    · rw [if_neg hcond]
      exact h1
  · intro c' hc'
    by_cases hcond : (ContextLogger.extractFields L.top_level_fields
        (extra, L.finalizedContext global context exclude_context)).2 ≠ []
        || L.always_set_context
    · rw [if_pos hcond, listLookup_listSet_self] at hc'
      injection hc' with hattr
      injection hattr with hctx
      rw [← hctx]
      exact h2
    · rw [if_neg hcond] at hc'
      rw [mctx.1] at hc'
      by_cases hm : "context" ∈ L.top_level_fields
      · rw [if_pos hm, hxn, Option.or_none] at hc'
        cases hfin : listLookup (L.finalizedContext global context exclude_context) "context" with
        | none => rw [hfin] at hc'; exact absurd hc' (by simp)
        | some w =>
          rw [hfin] at hc'
          simp only [Option.map_some'] at hc'
          injection hc' with hattr
          exact absurd hattr (by simp)
      · rw [if_neg hm, hxn] at hc'
        exact absurd hc' (by simp)

/-- Witness for `C6_top_level_extraction` at a concrete input: top-level field
`user` supplied inline is attached as a sibling attribute and removed from the
nested context. -/
theorem C6_top_level_extraction_witness :
    ∃ e : Extra,
      ContextLogger.logExtra ⟨[], ["user"], false⟩ [] (some [("user", Value.int 7)]) false []
        = .ok e
      ∧ listLookup e "user"
          = (listLookup (ContextLogger.finalizedContext ⟨[], ["user"], false⟩ []
              (some [("user", Value.int 7)]) false) "user").map Attr.val
      ∧ ∀ c' : Ctx, listLookup e "context" = some (Attr.ctx c') → listLookup c' "user" = none :=
  C6_top_level_extraction ⟨[], ["user"], false⟩ [] (some [("user", Value.int 7)]) false [] "user"
    (by decide) (by decide) (by decide) (by decide) (by decide)

/-- Opening a list of scopes and closing them in LIFO order restores the
ambient current value exactly, leaving only used-up tokens behind. -/
theorem closeAll_openAll (s : CtxVarState) (ds : List Ctx) :
    closeAll (openAll s ds).1 (openAll s ds).2
      = .ok ⟨s.current, s.tokens ++ List.replicate ds.length none⟩ := by
  induction ds generalizing s with
  | nil => simp [openAll, closeAll]
  | cons d rest ih =>
    have hopen : openAll s (d :: rest)
        = ((openAll ⟨dictMerge s.current d, s.tokens ++ [some s.current]⟩ rest).1,
           ⟨d, s.tokens.length⟩
             :: (openAll ⟨dictMerge s.current d, s.tokens ++ [some s.current]⟩ rest).2) := rfl
    rw [hopen]
    show (closeAll _ _).bind _ = _
    rw [ih ⟨dictMerge s.current d, s.tokens ++ [some s.current]⟩]
    show LogContext.exit _ _ = _
    unfold LogContext.exit ContextLogger.remove_context CtxVarState.reset
    have hget : ((s.tokens ++ [some s.current]) ++ List.replicate rest.length none)[s.tokens.length]?
        = some (some s.current) := by
      rw [List.append_assoc, List.getElem?_append_right (le_refl _)]
      simp
    have hset : ((s.tokens ++ [some s.current]) ++ List.replicate rest.length none).set
          s.tokens.length none
        = s.tokens ++ List.replicate (rest.length + 1) none := by
      rw [List.append_assoc, List.set_append]
      simp [List.replicate_succ]
    rw [hget]
    simp only [List.length_cons]
    rw [hset]

/-- C7 as stated is false when a top-level field is named `context`: with
`top_level_fields = [context]`, base context `context = 5` and
`always_set_context = false`, the remaining context mapping after extraction is
empty, yet the emitted attributes do contain the key `context` (holding the
extracted scalar `5`). -/
theorem C7_counterexample :
    ContextLogger.logExtra ⟨[("context", Value.int 5)], ["context"], false⟩ [] none false []
      = .ok [("context", Attr.val (Value.int 5))]
    ∧ (ContextLogger.extractFields ["context"]
        ([], ContextLogger.finalizedContext ⟨[("context", Value.int 5)], ["context"], false⟩
          [] none false)).2 = []
    ∧ (ContextLogger.mk [("context", Value.int 5)] ["context"] false).always_set_context = false
    ∧ listContains [(("context" : String), Attr.val (Value.int 5))] "context" = true := by
  refine ⟨rfl, rfl, rfl, by decide⟩

/-- C7 (amended): a log call issued after all scopes opened in a strand have
been closed carries no context from those scopes — closing them in LIFO order
restores the ambient value that was current before the first open; and the
emitted attributes contain the reserved key `context` iff the remaining
context mapping after extraction is non-empty, or `always_set_context` is set,
or `context` is itself a declared top-level field occurring in the merged
context (in which case the attribute holds the extracted value). -/
theorem C7_no_leakage_and_attachment :
    (∀ (s : CtxVarState) (ds : List Ctx),
        (closeAll (openAll s ds).1 (openAll s ds).2).map (fun s' => s'.current)
          = .ok s.current)
    ∧ (∀ (L : ContextLogger) (global : Ctx) (context : Option Ctx)
          (exclude_context : Bool) (extra : Extra),
        listContains extra "context" = false → L.top_level_fields.Nodup →
        ∃ e : Extra,
          L.logExtra global context exclude_context extra = .ok e
          ∧ (listContains e "context" = true ↔
              (ContextLogger.extractFields L.top_level_fields
                  (extra, L.finalizedContext global context exclude_context)).2 ≠ []
              ∨ L.always_set_context = true
              ∨ ("context" ∈ L.top_level_fields
                  ∧ listContains (L.finalizedContext global context exclude_context)
                      "context" = true))) := by
  constructor
  · intro s ds
    rw [closeAll_openAll s ds]
    rfl
  · intro L global context exclude_context extra hx hnd
    refine ⟨_, logExtra_ok L global context exclude_context extra hx, ?_⟩
    have mctx := extractFields_lookup L.top_level_fields extra
        (L.finalizedContext global context exclude_context) "context" hnd
    have hxn : listLookup extra "context" = none := listLookup_eq_none_of_not_contains hx
    by_cases hcond : (ContextLogger.extractFields L.top_level_fields
        (extra, L.finalizedContext global context exclude_context)).2 ≠ []
        || L.always_set_context
    · rw [if_pos hcond]
      have hTrue : listContains (listSet (ContextLogger.extractFields L.top_level_fields
          (extra, L.finalizedContext global context exclude_context)).1 "context"
          (Attr.ctx (ContextLogger.extractFields L.top_level_fields
            (extra, L.finalizedContext global context exclude_context)).2)) "context" = true := by
        rw [listContains_eq_isSome, listLookup_listSet_self]
        rfl
      simp only [hTrue, true_iff]
      rcases (by simpa using hcond :
          (ContextLogger.extractFields L.top_level_fields
            (extra, L.finalizedContext global context exclude_context)).2 ≠ []
          ∨ L.always_set_context = true) with h | h
      · exact Or.inl h
      · exact Or.inr (Or.inl h)
    · rw [if_neg hcond]
      have hc : ¬ (ContextLogger.extractFields L.top_level_fields
            (extra, L.finalizedContext global context exclude_context)).2 ≠ []
          ∧ L.always_set_context = false := by
        rcases Bool.or_eq_false_iff.mp (Bool.not_eq_true _ |>.mp hcond) with ⟨h1, h2⟩
        exact ⟨by simpa using h1, h2⟩
      constructor
      · intro hLc
        right; right
        rw [listContains_eq_isSome, mctx.1] at hLc
        by_cases hm : "context" ∈ L.top_level_fields
        · rw [if_pos hm, hxn, Option.or_none] at hLc
          refine ⟨hm, ?_⟩
          rw [listContains_eq_isSome]
          simpa using hLc
        · rw [if_neg hm, hxn] at hLc
          simp at hLc
      · rintro (h | h | ⟨hm, hcc⟩)
        · exact absurd h hc.1
        · rw [hc.2] at h
          exact absurd h (by simp)
        · rw [listContains_eq_isSome, mctx.1, if_pos hm, hxn, Option.or_none]
          rw [listContains_eq_isSome] at hcc
          simpa using hcc

/-- Witness for `C7_no_leakage_and_attachment` at a concrete input: base
context `service = x`, no top-level fields, `always_set_context` off — the
context attribute is attached because the remaining mapping is non-empty. -/
theorem C7_no_leakage_and_attachment_witness :
    ∃ e : Extra,
      ContextLogger.logExtra ⟨[("service", Value.str "x")], [], false⟩ [] none false []
        = .ok e
      ∧ (listContains e "context" = true ↔
          (ContextLogger.extractFields ([] : List String)
              ([], ContextLogger.finalizedContext ⟨[("service", Value.str "x")], [], false⟩
                [] none false)).2 ≠ []
          ∨ false = true
          ∨ ("context" ∈ ([] : List String)
              ∧ listContains (ContextLogger.finalizedContext
                  ⟨[("service", Value.str "x")], [], false⟩ [] none false) "context" = true)) :=
  C7_no_leakage_and_attachment.2 ⟨[("service", Value.str "x")], [], false⟩ [] none false []
    (by decide) (by decide)

/-- C9: strand isolation. Two strands spawned from a parent whose ambient
context is `x = 1` each receive a snapshot of that value; whichever order
their pushes interleave in, a log call in strand A sees `x = 1, y = 2` and a
log call in strand B sees `x = 1, z = 3`, and neither strand observes the
other's key. -/
theorem C9_strand_isolation (tks : List (Option Ctx)) (first : Bool) :
    (runStrands ⟨spawnStrand ⟨[("x", Value.int 1)], tks⟩,
          spawnStrand ⟨[("x", Value.int 1)], tks⟩⟩
        (if first then [StrandOp.pushA [("y", Value.int 2)], StrandOp.pushB [("z", Value.int 3)]]
         else [StrandOp.pushB [("z", Value.int 3)], StrandOp.pushA [("y", Value.int 2)]])).strandA.current
      = [("x", Value.int 1), ("y", Value.int 2)]
    ∧ (runStrands ⟨spawnStrand ⟨[("x", Value.int 1)], tks⟩,
          spawnStrand ⟨[("x", Value.int 1)], tks⟩⟩
        (if first then [StrandOp.pushA [("y", Value.int 2)], StrandOp.pushB [("z", Value.int 3)]]
         else [StrandOp.pushB [("z", Value.int 3)], StrandOp.pushA [("y", Value.int 2)]])).strandB.current
      = [("x", Value.int 1), ("z", Value.int 3)]
    ∧ listLookup (runStrands ⟨spawnStrand ⟨[("x", Value.int 1)], tks⟩,
          spawnStrand ⟨[("x", Value.int 1)], tks⟩⟩
        (if first then [StrandOp.pushA [("y", Value.int 2)], StrandOp.pushB [("z", Value.int 3)]]
         else [StrandOp.pushB [("z", Value.int 3)], StrandOp.pushA [("y", Value.int 2)]])).strandA.current
        "z" = none
    ∧ listLookup (runStrands ⟨spawnStrand ⟨[("x", Value.int 1)], tks⟩,
          spawnStrand ⟨[("x", Value.int 1)], tks⟩⟩
        (if first then [StrandOp.pushA [("y", Value.int 2)], StrandOp.pushB [("z", Value.int 3)]]
         else [StrandOp.pushB [("z", Value.int 3)], StrandOp.pushA [("y", Value.int 2)]])).strandB.current
        "y" = none
    ∧ ContextLogger.logExtra plainLogger
        (runStrands ⟨spawnStrand ⟨[("x", Value.int 1)], tks⟩,
            spawnStrand ⟨[("x", Value.int 1)], tks⟩⟩
          (if first then [StrandOp.pushA [("y", Value.int 2)], StrandOp.pushB [("z", Value.int 3)]]
           else [StrandOp.pushB [("z", Value.int 3)], StrandOp.pushA [("y", Value.int 2)]])).strandA.current
        none false []
      = .ok [("context", Attr.ctx [("x", Value.int 1), ("y", Value.int 2)])]
    ∧ ContextLogger.logExtra plainLogger
        (runStrands ⟨spawnStrand ⟨[("x", Value.int 1)], tks⟩,
            spawnStrand ⟨[("x", Value.int 1)], tks⟩⟩
          (if first then [StrandOp.pushA [("y", Value.int 2)], StrandOp.pushB [("z", Value.int 3)]]
           else [StrandOp.pushB [("z", Value.int 3)], StrandOp.pushA [("y", Value.int 2)]])).strandB.current
        none false []
      = .ok [("context", Attr.ctx [("x", Value.int 1), ("z", Value.int 3)])] := by
  cases first
  · exact ⟨rfl, rfl, rfl, rfl, rfl, rfl⟩
  · exact ⟨rfl, rfl, rfl, rfl, rfl, rfl⟩

/-- Dereferencing a freshly allocated cell yields the allocated value. -/
theorem Heap.get_alloc (h : Heap) (v : Ctx) : ((h.alloc v).1).get (h.alloc v).2 = v := by
  unfold Heap.alloc Heap.get
  simp [List.getElem?_concat_length]

/-- Allocation does not disturb valid existing cells. -/
theorem Heap.get_alloc_lt (h : Heap) (v : Ctx) (r : Nat) (hr : r < h.cells.length) :
    ((h.alloc v).1).get r = h.get r := by
  unfold Heap.alloc Heap.get
  rw [List.getElem?_append_left hr]

/-- The payload computed by the heap view of `_log` coincides with the pure
pipeline applied to the dereferenced base context: the call reads the heap
only through the logger's base cell. -/
theorem logExtraHeap_snd (h : Heap) (L : HeapLogger) (global : Ctx) (context : Option Ctx)
    (exclude_context : Bool) (extra : Extra) :
    (ContextLogger.logExtraHeap h L global context exclude_context extra).2
      = ContextLogger.logExtra ⟨h.get L.base_ref, L.top_level_fields, L.always_set_context⟩
          global context exclude_context extra := by
  unfold ContextLogger.logExtraHeap ContextLogger.logExtra ContextLogger.finalizedContext
  by_cases hx : listContains extra "context"
  · simp [hx]
  · simp only [hx, Bool.false_eq_true, if_false]
    simp [Heap.alloc, Heap.get, List.getElem?_concat_length]

/-- C10: the stored base context is never mutated. (i) A log call — including
`exclude_context` calls and top-level-field extraction, whose pops hit only
the freshly allocated finalized dict — leaves the logger's base-context cell
identical before and after. (ii) The mapping passed at construction is
defensively copied: mutating the caller's dict afterwards does not change the
stored base cell. (iii) The emitted payload depends on the heap only through
the value of the base cell, so no caller-side mutation of other cells affects
any emitted log. -/
theorem C10_base_context_never_mutated :
    (∀ (h : Heap) (L : HeapLogger) (global : Ctx) (context : Option Ctx)
        (exclude_context : Bool) (extra : Extra),
        L.base_ref < h.cells.length →
        (ContextLogger.logExtraHeap h L global context exclude_context extra).1.get L.base_ref
          = h.get L.base_ref)
    ∧ (∀ (h : Heap) (r : Nat) (fields : List String) (alw : Bool) (v : Ctx),
        r < h.cells.length →
        ((ContextLogger.initHeap h (some r) fields alw).1.write r v).get
            (ContextLogger.initHeap h (some r) fields alw).2.base_ref
          = h.get r)
    ∧ (∀ (h1 h2 : Heap) (L : HeapLogger) (global : Ctx) (context : Option Ctx)
        (exclude_context : Bool) (extra : Extra),
        h1.get L.base_ref = h2.get L.base_ref →
        (ContextLogger.logExtraHeap h1 L global context exclude_context extra).2
          = (ContextLogger.logExtraHeap h2 L global context exclude_context extra).2) := by
  refine ⟨?_, ?_, ?_⟩
  · intro h L global context exclude_context extra hlt
    unfold ContextLogger.logExtraHeap
    by_cases hx : listContains extra "context"
    · simp only [hx, if_true]
      exact Heap.get_alloc_lt h _ L.base_ref hlt
    · simp only [hx, Bool.false_eq_true, if_false]
      show Heap.get (Heap.write _ _ _) L.base_ref = h.get L.base_ref
      unfold Heap.write Heap.get Heap.alloc
      rw [List.getElem?_set_ne (Nat.ne_of_gt hlt), List.getElem?_append_left hlt]
  · intro h r fields alw v hr
    show (Heap.write ⟨h.cells ++ [h.get r]⟩ r v).get h.cells.length = h.get r
    unfold Heap.write Heap.get
    rw [List.getElem?_set_ne (Nat.ne_of_lt hr)]
    simp [List.getElem?_concat_length]
  · intro h1 h2 L global context exclude_context extra hh
    rw [logExtraHeap_snd, logExtraHeap_snd, hh]

/-- Witness for `C10_base_context_never_mutated` at a concrete input: a heap
holding one dict `a = 1` used as the base cell of a logger survives a log call
unchanged. -/
theorem C10_base_context_never_mutated_witness :
    (0 : Nat) < (Heap.mk [[("a", Value.int 1)]]).cells.length
    ∧ (ContextLogger.logExtraHeap ⟨[[("a", Value.int 1)]]⟩ ⟨0, [], false⟩ [] none false []).1.get 0
        = (Heap.mk [[("a", Value.int 1)]]).get 0 :=
  ⟨by decide,
    C10_base_context_never_mutated.1 ⟨[[("a", Value.int 1)]]⟩ ⟨0, [], false⟩ [] none false []
      (by decide)⟩
